import Mathlib

/-!
Shallow embedding of the code-selection engine of the `intelligent-search`
repository (src/src/hooks/useCodeSearch.ts and
src/src/components/SelectedCodesPanel.tsx), together with theorems checking
the natural-language specification against it.

JavaScript strings are modelled as Lean `String` (a structure holding a
`List Char`); the JS string operations used by the source (`trim`,
`toLowerCase`, `toUpperCase`, `includes`, `split(/\s+/)`, `replace`, `slice`)
are defined below at the character-list level with JS semantics.  A JS `Set`
of strings is modelled as `Finset String` where only membership matters, and
as an insertion-ordered duplicate-free `List String` where the source
iterates it (`Array.from`).  A JS `Map` built by repeated `set` calls is
modelled as the list of inserted (key, value) pairs with a last-wins lookup.
-/

namespace CodeSearch

/-! ## String helpers (JS semantics) -/

/-- JS `String.prototype.toLowerCase` (ASCII as used by the data). -/
def lowerStr (s : String) : String := ⟨s.data.map Char.toLower⟩

/-- JS `String.prototype.toUpperCase` (ASCII as used by the data). -/
def upperStr (s : String) : String := ⟨s.data.map Char.toUpper⟩

/-- Strip leading and trailing whitespace from a character list. -/
def trimChars (l : List Char) : List Char :=
  ((l.dropWhile Char.isWhitespace).reverse.dropWhile Char.isWhitespace).reverse

/-- JS `String.prototype.trim`. -/
def trimStr (s : String) : String := ⟨trimChars s.data⟩

/-- JS `hay.includes(needle)`: `needle` occurs contiguously inside `hay`. -/
def isSubstrOf (needle hay : String) : Prop := needle.data <:+: hay.data

instance (n h : String) : Decidable (isSubstrOf n h) :=
  inferInstanceAs (Decidable (n.data <:+: h.data))

/-- JS `s.split(/\s+/)` on an already-trimmed string: the maximal runs of
non-whitespace characters, in order. -/
def splitWs (s : String) : List String :=
  ((s.data.splitOnP Char.isWhitespace).filter (· ≠ [])).map String.mk

/-- JS `s.replace('.', '')`: remove the first occurrence of a character. -/
def removeFirstChar : List Char → Char → List Char
  | [], _ => []
  | c :: cs, t => if c = t then cs else c :: removeFirstChar cs t

/-- JS `s.replace('.', '')` for the period, as used for ICD-10 codes. -/
def stripFirstDot (s : String) : String := ⟨removeFirstChar s.data '.'⟩

/-- JS `s.replace(/\D/g, '')`: keep only the decimal digits. -/
def filterDigits (s : String) : String := ⟨s.data.filter Char.isDigit⟩

/-! ## Data model (src/src/types/codes.ts) -/

/-- The three code families (`CodeType` in src/src/types/codes.ts). -/
inductive CodeType : Type where
  | icd10cm : CodeType
  | hcpcs : CodeType
  | ndc : CodeType
deriving DecidableEq

/-- A node of the ICD-10 diagnosis hierarchy (`ICD10Code`); the optional
`children` array is modelled as a list, `[]` standing for an absent array
(the source only ever iterates it, so the two behave identically). -/
inductive ICD10Code : Type where
  | node : String → String → Nat → List ICD10Code → ICD10Code

def ICD10Code.code : ICD10Code → String
  | node c _ _ _ => c

def ICD10Code.name : ICD10Code → String
  | node _ n _ _ => n

def ICD10Code.level : ICD10Code → Nat
  | node _ _ l _ => l

def ICD10Code.children : ICD10Code → List ICD10Code
  | node _ _ _ ch => ch

/-- An HCPCS procedure-code entry (`HCPCSCode`). -/
structure HCPCSCode where
  code : String
  name : String
  category : String
deriving DecidableEq

/-- An NDC drug-code entry (`NDCCode`). -/
structure NDCCode where
  code : String
  name : String
  manufacturer : String
  packageSize : String
deriving DecidableEq

/-- The unified flattened record (`FlattenedCode`). -/
structure FlattenedCode where
  code : String
  name : String
  type : CodeType
  category : Option String := none
  level : Option Nat := none
  parentCode : Option String := none
  manufacturer : Option String := none
  packageSize : Option String := none
deriving DecidableEq

/-- The three pre-loaded catalog datasets consumed by `useCodeSearch`. -/
structure Catalog where
  icd10 : List ICD10Code
  hcpcs : List HCPCSCode
  ndc : List NDCCode

/-! ## Tree helpers (useCodeSearch.ts lines 187-229) -/

mutual

/-- `collectAllCodes` from useCodeSearch.ts: the node's code followed by all
recursively nested children's codes, in pre-order. -/
def collectAllCodes : ICD10Code → List String
  | .node c _ _ ch => c :: collectAllCodesList ch

/-- The `for (const child of node.children)` loop inside `collectAllCodes`. -/
def collectAllCodesList : List ICD10Code → List String
  | [] => []
  | n :: ns => collectAllCodes n ++ collectAllCodesList ns

end

mutual

/-- `getAllDescendantCodes` from useCodeSearch.ts: scan the forest for the
first node whose code equals the target and return that node's full
descendant code list (itself included); `[]` when the target is absent.
The source's per-iteration body (match test, then child search, then move to
the next sibling) is split into the node helper below. -/
def getAllDescendantCodes : List ICD10Code → String → List String
  | [], _ => []
  | n :: ns, target =>
    let found := getAllDescendantCodesNode n target
    if 0 < found.length then found else getAllDescendantCodes ns target

/-- One iteration of the `getAllDescendantCodes` loop: if this node matches,
collect it; otherwise search its children. -/
def getAllDescendantCodesNode : ICD10Code → String → List String
  | .node c nm l ch, target =>
    if c = target then collectAllCodes (.node c nm l ch)
    else getAllDescendantCodes ch target

end

mutual

/-- `flattenICD10Codes` from useCodeSearch.ts: pre-order flattening of the
diagnosis tree into `FlattenedCode` records carrying level and parent code. -/
def flattenICD10Codes : List ICD10Code → Option String → List FlattenedCode
  | [], _ => []
  | n :: ns, parent => flattenICD10CodesNode n parent ++ flattenICD10Codes ns parent

/-- One iteration of the `flattenICD10Codes` loop: emit the node, then its
children with `parentCode` set to the node's code. -/
def flattenICD10CodesNode : ICD10Code → Option String → List FlattenedCode
  | .node c nm l ch, parent =>
    { code := c, name := nm, type := .icd10cm, level := some l, parentCode := parent }
      :: flattenICD10Codes ch (some c)

end

/-- `allCodes` (useCodeSearch.ts lines 334-351): flattened diagnosis tree,
then the HCPCS list, then the NDC list. -/
def allCodes (cat : Catalog) : List FlattenedCode :=
  flattenICD10Codes cat.icd10 none
    ++ cat.hcpcs.map (fun c =>
        { code := c.code, name := c.name, type := .hcpcs, category := some c.category })
    ++ cat.ndc.map (fun c =>
        { code := c.code, name := c.name, type := .ndc,
          manufacturer := some c.manufacturer, packageSize := some c.packageSize })

/-! ## Search and filter engine (useCodeSearch.ts lines 354-384) -/

/-- The template string `` `${code.code} ${code.name} ${code.category || ''}` ``
built by `searchFilteredCodes`. -/
def searchableText (c : FlattenedCode) : String :=
  ⟨c.code.data ++ (' ' :: c.name.data) ++ (' ' :: (c.category.getD "").data)⟩

/-- `const queryTerms = searchQuery.toLowerCase().trim().split(/\s+/)`. -/
def queryTerms (searchQuery : String) : List String :=
  splitWs (trimStr (lowerStr searchQuery))

/-- The filter predicate of `searchFilteredCodes`: every query term occurs in
the lower-cased searchable text. -/
def matchesQuery (terms : List String) (c : FlattenedCode) : Bool :=
  terms.all fun t => decide (isSubstrOf t (lowerStr (searchableText c)))

/-- `searchFilteredCodes` (useCodeSearch.ts lines 354-364): all records when
the query is empty after trimming, otherwise the stable filter by
`matchesQuery`. -/
def searchFilteredCodes (searchQuery : String) (codes : List FlattenedCode) :
    List FlattenedCode :=
  if trimStr searchQuery = "" then codes
  else codes.filter (matchesQuery (queryTerms searchQuery))

/-- The `codeTypeFilter` step of `filteredCodes` (lines 375-384); `none`
models the `'all'` filter value. -/
def applyTypeFilter (tf : Option CodeType) (codes : List FlattenedCode) :
    List FlattenedCode :=
  match tf with
  | none => codes
  | some t => codes.filter (fun c => decide (c.type = t))

/-- The hook state relevant to the claims: `searchQuery`, `selectedCodes`
(a JS `Set` modelled by membership) and `codeTypeFilter`. -/
structure SearchState where
  searchQuery : String
  selectedCodes : Finset String
  codeTypeFilter : Option CodeType

/-- `filteredCodes`: the search filter followed by the type filter. -/
def filteredCodes (cat : Catalog) (st : SearchState) : List FlattenedCode :=
  applyTypeFilter st.codeTypeFilter (searchFilteredCodes st.searchQuery (allCodes cat))

/-! ## Selection engine (useCodeSearch.ts lines 387-455) -/

/-- The `for (const c of l) next.delete(c)` loop over a JS `Set`. -/
def eraseAll (s : Finset String) (l : List String) : Finset String :=
  l.foldl (fun s c => s.erase c) s

/-- The `for (const c of l) next.add(c)` loop over a JS `Set`. -/
def insertAll (s : Finset String) (l : List String) : Finset String :=
  l.foldl (fun s c => insert c s) s

/-- `getHCPCSCodesInCategory` (lines 387-391). -/
def getHCPCSCodesInCategory (hcpcs : List HCPCSCode) (category : String) :
    List String :=
  (hcpcs.filter (fun c => decide (c.category = category))).map (·.code)

/-- `toggleCode` (lines 394-446): HCPCS category toggle, else ICD-10 subtree
toggle, else simple toggle of the single code. -/
def toggleCode (cat : Catalog) (code : String) (prev : Finset String) :
    Finset String :=
  let hcpcsCategoryCodes := getHCPCSCodesInCategory cat.hcpcs code
  let icd10Descendants := getAllDescendantCodes cat.icd10 code
  if 0 < hcpcsCategoryCodes.length then
    if hcpcsCategoryCodes.all (fun c => decide (c ∈ prev)) then
      eraseAll prev hcpcsCategoryCodes
    else
      insertAll prev hcpcsCategoryCodes
  else if 0 < icd10Descendants.length then
    if code ∈ prev then
      eraseAll prev icd10Descendants
    else
      insertAll prev icd10Descendants
  else
    if code ∈ prev then prev.erase code else insert code prev

/-- `selectAll` (lines 448-451): `setSelectedCodes(new Set(filteredCodes.map(c => c.code)))`. -/
def selectAll (cat : Catalog) (st : SearchState) : SearchState :=
  { st with selectedCodes := ((filteredCodes cat st).map (·.code)).toFinset }

/-- `deselectAll` (lines 453-455): `setSelectedCodes(new Set())`. -/
def deselectAll (st : SearchState) : SearchState :=
  { st with selectedCodes := ∅ }

/-! ## Group synchronization (SelectedCodesPanel.tsx lines 73-90) -/

/-- The three ordered groups (`GroupState` in SelectedCodesPanel.tsx). -/
structure GroupState where
  group1 : List String
  group2 : List String
  group3 : List String
deriving DecidableEq

/-- `syncedGroups` (SelectedCodesPanel.tsx lines 73-90).  `selected` is the
JS `Set` of selected codes given as `Array.from(selectedCodes)`, i.e. its
insertion-ordered element list; set membership tests coincide with list
membership on it. -/
def syncedGroups (groups : GroupState) (selected : List String) : GroupState :=
  let allGroupedCodes := groups.group1 ++ groups.group2 ++ groups.group3
  let unassignedCodes := selected.filter (fun c => decide (c ∉ allGroupedCodes))
  let filteredGroup1 := groups.group1.filter (fun c => decide (c ∈ selected))
  let filteredGroup2 := groups.group2.filter (fun c => decide (c ∈ selected))
  let filteredGroup3 := groups.group3.filter (fun c => decide (c ∈ selected))
  { group1 := filteredGroup1 ++ unassignedCodes
    group2 := filteredGroup2
    group3 := filteredGroup3 }

/-! ## CSV import reconciler (useCodeSearch.ts lines 231-324 and 477-559) -/

/-- A parsed CSV row (`ImportedCSVRow` in src/src/types/codes.ts). -/
structure ImportedCSVRow where
  code_group : String
  code_category : Option String := none
  code_type : String
  code_value : String
  code_desc : Option String := none
deriving DecidableEq

/-- `normalizeCodeTypeFromCSV` (lines 238-244). -/
def normalizeCodeTypeFromCSV (value : String) : Option CodeType :=
  let v := upperStr (trimStr value)
  if v = "ICD10" ∨ v = "ICD10CM" ∨ v = "ICD10DX" then some .icd10cm
  else if v = "HCPCS" then some .hcpcs
  else if v = "NDC" then some .ndc
  else none

/-- Test of the regex `/^[A-Z]\d{2}/i` used by `normalizeICD10Code`. -/
def icd10Shaped (s : String) : Bool :=
  match s.data with
  | a :: b :: c :: _ =>
    (('A' ≤ a && a ≤ 'Z') || ('a' ≤ a && a ≤ 'z')) && b.isDigit && c.isDigit
  | _ => false

/-- `normalizeICD10Code` (lines 250-258): insert a period after the third
character when the trimmed input has none, is at least four characters long
and starts letter-digit-digit. -/
def normalizeICD10Code (value : String) : String :=
  let s := trimStr value
  if '.' ∈ s.data then s
  else if 4 ≤ s.data.length && icd10Shaped s then
    ⟨s.data.take 3 ++ '.' :: s.data.drop 3⟩
  else s

/-- `normalizeHCPCSCode` (lines 261-263): trim, then drop every whitespace
character (`replace(/\s+/g, '')`). -/
def normalizeHCPCSCode (value : String) : String :=
  ⟨(trimStr value).data.filter (fun c => !c.isWhitespace)⟩

/-- `ndc11ToNdc10Digits` (lines 270-279): split the 11-digit string 5-4-2 and
drop the leading zero of the first zero-led segment, truncating the last
digit when no segment leads with zero. -/
def ndc11ToNdc10Digits (digits11 : String) : String :=
  if digits11.data.length ≠ 11 then digits11
  else
    let s1 := digits11.data.take 5
    let s2 := (digits11.data.drop 5).take 4
    let s3 := (digits11.data.drop 9).take 2
    if s1.head? = some '0' then ⟨s1.drop 1 ++ s2 ++ s3⟩
    else if s2.head? = some '0' then ⟨s1 ++ s2.drop 1 ++ s3⟩
    else if s3.head? = some '0' then ⟨s1 ++ s2 ++ s3.drop 1⟩
    else ⟨digits11.data.take 10⟩

/-- A JS `Map<string, string>` built by successive `set` calls, modelled as
the insertion list; `get` returns the value of the last matching insertion. -/
def mapGet (entries : List (String × String)) (key : String) : Option String :=
  ((entries.filter (fun p => decide (p.1 = key))).getLast?).map (·.2)

/-- `codesByType.get(t)` (lines 482-486): the codes of the records of one
family, in catalog order.  The source stores them in a `Set`; only membership
and (deduplicated) iteration are used, which agree with this list. -/
def codesOfType (codes : List FlattenedCode) (t : CodeType) : List String :=
  (codes.filter (fun c => decide (c.type = t))).map (·.code)

/-- The `icd10UnformattedToCanonical` map (lines 489-496): for every canonical
diagnosis code containing a period, map its period-stripped form back to it. -/
def icd10RevIndex (icd10Codes : List String) : List (String × String) :=
  (icd10Codes.filter (fun c => decide (stripFirstDot c ≠ c))).map
    (fun c => (stripFirstDot c, c))

/-- The `ndcDigitsToCanonical` map (lines 499-506): for every canonical drug
code whose digit content is exactly 10 digits, map those digits back to it. -/
def ndcRevIndex (ndcCodes : List String) : List (String × String) :=
  (ndcCodes.filter (fun c => decide ((filterDigits c).data.length = 10))).map
    (fun c => (filterDigits c, c))

/-- `resolveCodeForMatch` (lines 282-325). -/
def resolveCodeForMatch (codeValue : String) (rowType : CodeType)
    (codesByType : CodeType → List String)
    (icd10UnformattedToCanonical ndcDigitsToCanonical : List (String × String)) :
    Option String :=
  let s := trimStr codeValue
  if s = "" then none
  else
    let codes := codesByType rowType
    match rowType with
    | .icd10cm =>
      if s ∈ codes then some s
      else
        let withPeriod := normalizeICD10Code s
        if withPeriod ∈ codes then some withPeriod
        else mapGet icd10UnformattedToCanonical (stripFirstDot s)
    | .hcpcs =>
      if s ∈ codes then some s
      else
        let noSpaces := normalizeHCPCSCode s
        if noSpaces ∈ codes then some noSpaces else none
    | .ndc =>
      if s ∈ codes then some s
      else
        let digitsOnly := filterDigits s
        if digitsOnly.data.length = 11 then
          mapGet ndcDigitsToCanonical (ndc11ToNdc10Digits digitsOnly)
        else if digitsOnly.data.length = 10 then
          mapGet ndcDigitsToCanonical digitsOnly
        else none

/-- The `codeTypesSeen` JS `Set`, modelled as its insertion-ordered
duplicate-free element list. -/
def seenAdd (seen : List CodeType) (t : CodeType) : List CodeType :=
  if t ∈ seen then seen else seen ++ [t]

/-- The per-row group assignment of `importCodesFromCSV` (lines 535-542). -/
def pushGroup (groups : GroupState) (groupValue : String) (canonicalCode : String) :
    GroupState :=
  if groupValue = "2" then { groups with group2 := groups.group2 ++ [canonicalCode] }
  else if groupValue = "3" then { groups with group3 := groups.group3 ++ [canonicalCode] }
  else { groups with group1 := groups.group1 ++ [canonicalCode] }

/-- The mutable accumulators of the `importCodesFromCSV` row loop. -/
structure ImportAcc where
  codeSet : Finset String
  groups : GroupState
  matchedCodes : List String
  unmatchedCodes : List String
  codeTypesSeen : List CodeType

/-- One iteration of the `for (const row of codes)` loop of
`importCodesFromCSV` (lines 512-546): skip blank code values, report an
unrecognized type token as unmatched, otherwise resolve and record the row. -/
def importStep (codesByType : CodeType → List String)
    (icd10Rev ndcRev : List (String × String)) (row : ImportedCSVRow)
    (acc : ImportAcc) : ImportAcc :=
  let codeStr := trimStr row.code_value
  if codeStr = "" then acc
  else
    match normalizeCodeTypeFromCSV row.code_type with
    | none => { acc with unmatchedCodes := acc.unmatchedCodes ++ [codeStr] }
    | some rowType =>
      let acc1 := { acc with codeTypesSeen := seenAdd acc.codeTypesSeen rowType }
      match resolveCodeForMatch codeStr rowType codesByType icd10Rev ndcRev with
      | some canonicalCode =>
        { acc1 with
          codeSet := insert canonicalCode acc1.codeSet
          matchedCodes := acc1.matchedCodes ++ [canonicalCode]
          groups := pushGroup acc1.groups (trimStr row.code_group) canonicalCode }
      | none => { acc1 with unmatchedCodes := acc1.unmatchedCodes ++ [codeStr] }

/-- The `for (const row of codes)` loop of `importCodesFromCSV`: fold
`importStep` over the rows in order. -/
def importLoop (codesByType : CodeType → List String)
    (icd10Rev ndcRev : List (String × String)) :
    List ImportedCSVRow → ImportAcc → ImportAcc
  | [], acc => acc
  | row :: rest, acc =>
    importLoop codesByType icd10Rev ndcRev rest
      (importStep codesByType icd10Rev ndcRev row acc)

/-- What `importCodesFromCSV` produces: the new `selected` set, the new
groups, the returned matched/unmatched lists, and the type filter it sets
(`none` modelling `'all'`). -/
structure ImportResult where
  selected : Finset String
  groups : GroupState
  matchedCodes : List String
  unmatchedCodes : List String
  codeTypeFilter : Option CodeType

/-- `importCodesFromCSV` (lines 477-559). -/
def importCodesFromCSV (codes : List FlattenedCode) (rows : List ImportedCSVRow) :
    ImportResult :=
  let codesByType := codesOfType codes
  let icd10Rev := icd10RevIndex (codesByType .icd10cm)
  let ndcRev := ndcRevIndex (codesByType .ndc)
  let acc := importLoop codesByType icd10Rev ndcRev rows
    ⟨∅, ⟨[], [], []⟩, [], [], []⟩
  { selected := acc.codeSet
    groups := acc.groups
    matchedCodes := acc.matchedCodes
    unmatchedCodes := acc.unmatchedCodes
    codeTypeFilter :=
      match acc.codeTypesSeen with
      | [t] => some t
      | _ => none }

/-- The state mutation performed by `importCodesFromCSV` on the hook state:
`setSelectedCodes(codeSet)` and the `setCodeTypeFilter` call, with the
matched/unmatched lists returned to the caller. -/
def applyImport (cat : Catalog) (st : SearchState) (rows : List ImportedCSVRow) :
    SearchState × List String × List String :=
  let r := importCodesFromCSV (allCodes cat) rows
  ({ st with selectedCodes := r.selected, codeTypeFilter := r.codeTypeFilter },
    r.matchedCodes, r.unmatchedCodes)

/-! ## Specification-side definition for the NDC padding rule -/

/-- Specification-side definition (from the spec's wording, to be compared
with `ndc11ToNdc10Digits` from the source): the index of the padding zero of
an 11-digit drug code — the leading position of the first of the three
segments of the 5-4-2 split that starts with a zero (positions 0, 5, 9,
checked in that order), and 10 (truncation of the final digit) when no
segment starts with a zero. -/
def ndcPadPositionSpec (digits11 : String) : Nat :=
  if digits11.data.get? 0 = some '0' then 0
  else if digits11.data.get? 5 = some '0' then 5
  else if digits11.data.get? 9 = some '0' then 9
  else 10

/-! ## Concrete fixtures used by witnesses and counterexamples -/

/-- The drug-code catalog of the repository (src/src/data/ndc_codes.ts). -/
def ndcCodesData : List NDCCode :=
  [⟨"0002-3227-30", "Humalog (Insulin Lispro) 100 units/mL", "Eli Lilly", "10 mL vial"⟩,
   ⟨"0002-7510-01", "Trulicity (Dulaglutide) 1.5 mg/0.5 mL", "Eli Lilly", "4 pens/box"⟩,
   ⟨"0006-0749-31", "Januvia (Sitagliptin) 100 mg", "Merck", "30 tablets"⟩,
   ⟨"0006-0277-31", "Keytruda (Pembrolizumab) 100 mg/4 mL", "Merck", "1 vial"⟩,
   ⟨"0069-0150-01", "Lipitor (Atorvastatin) 10 mg", "Pfizer", "90 tablets"⟩,
   ⟨"0069-2700-30", "Viagra (Sildenafil) 100 mg", "Pfizer", "30 tablets"⟩,
   ⟨"0074-3799-13", "Humira (Adalimumab) 40 mg/0.4 mL", "AbbVie", "2 pens/box"⟩,
   ⟨"0074-6624-02", "Rinvoq (Upadacitinib) 15 mg", "AbbVie", "30 tablets"⟩,
   ⟨"0078-0357-15", "Entresto (Sacubitril/Valsartan) 97/103 mg", "Novartis", "60 tablets"⟩,
   ⟨"0078-0620-61", "Cosentyx (Secukinumab) 150 mg/mL", "Novartis", "2 pens/box"⟩,
   ⟨"0173-0519-00", "Advair Diskus 250/50", "GlaxoSmithKline", "60 doses"⟩,
   ⟨"0173-0881-20", "Trelegy Ellipta 100/62.5/25", "GlaxoSmithKline", "30 doses"⟩,
   ⟨"0310-0751-60", "Ozempic (Semaglutide) 1 mg", "Novo Nordisk", "3 mL pen"⟩,
   ⟨"0310-6520-01", "Wegovy (Semaglutide) 2.4 mg", "Novo Nordisk", "4 pens/box"⟩,
   ⟨"0310-1660-10", "Victoza (Liraglutide) 1.8 mg/3 mL", "Novo Nordisk", "3 pens/box"⟩,
   ⟨"0591-0405-01", "Lisinopril 10 mg", "Actavis", "100 tablets"⟩,
   ⟨"0591-2234-01", "Metformin HCl 500 mg", "Actavis", "100 tablets"⟩,
   ⟨"50242-0040-01", "Rituxan (Rituximab) 100 mg/10 mL", "Genentech", "1 vial"⟩,
   ⟨"50242-0912-01", "Avastin (Bevacizumab) 400 mg/16 mL", "Genentech", "1 vial"⟩,
   ⟨"50242-0082-01", "Herceptin (Trastuzumab) 440 mg", "Genentech", "1 vial"⟩,
   ⟨"59148-0070-90", "Eliquis (Apixaban) 5 mg", "Bristol-Myers Squibb", "90 tablets"⟩,
   ⟨"59148-0050-60", "Eliquis (Apixaban) 2.5 mg", "Bristol-Myers Squibb", "60 tablets"⟩,
   ⟨"63459-0302-43", "Farxiga (Dapagliflozin) 10 mg", "AstraZeneca", "30 tablets"⟩,
   ⟨"63459-0501-30", "Symbicort 160/4.5", "AstraZeneca", "120 doses"⟩,
   ⟨"68180-0352-09", "Atorvastatin 40 mg", "Lupin", "90 tablets"⟩,
   ⟨"68180-0757-06", "Amlodipine 5 mg", "Lupin", "30 tablets"⟩,
   ⟨"00093-5264-01", "Omeprazole 20 mg", "Teva", "30 capsules"⟩,
   ⟨"00093-0833-01", "Gabapentin 300 mg", "Teva", "100 capsules"⟩,
   ⟨"00378-1800-01", "Levothyroxine 50 mcg", "Mylan", "100 tablets"⟩,
   ⟨"00378-4025-01", "Pantoprazole 40 mg", "Mylan", "30 tablets"⟩]

/-- A catalog holding the repository's drug-code dataset. -/
def ndcCatalog : Catalog := ⟨[], [], ndcCodesData⟩

/-- A catalog with one three-member procedure category. -/
def catHCPCS : Catalog := ⟨[], [⟨"X", "x", "C"⟩, ⟨"Y", "y", "C"⟩, ⟨"Z", "z", "C"⟩], []⟩

/-- A catalog with a two-level diagnosis subtree. -/
def catTree : Catalog := ⟨[.node "A00" "a" 1 [.node "A00.0" "b" 2 []]], [], []⟩

/-- A catalog with two procedure codes whose names differ for searching. -/
def catSearch : Catalog := ⟨[], [⟨"A1", "alpha", "G"⟩, ⟨"B2", "beta", "G"⟩], []⟩

/-- A state with a search query matching only the record `A1` of `catSearch`
while the code `B2` is already selected. -/
def stSearch : SearchState := ⟨"alpha", {"B2"}, none⟩

/-- A catalog with a single procedure code, for import fixtures. -/
def catImport : Catalog := ⟨[], [⟨"A100", "n", "Cat"⟩], []⟩

/-- A CSV row placing procedure code `A100` into group 1. -/
def rowGroup1 : ImportedCSVRow := ⟨"1", none, "HCPCS", "A100", none⟩

/-- A CSV row placing the same procedure code `A100` into group 2. -/
def rowGroup2 : ImportedCSVRow := ⟨"2", none, "HCPCS", "A100", none⟩

/-- A CSV row whose code value is whitespace-only. -/
def rowBlank : ImportedCSVRow := ⟨"1", none, "HCPCS", "   ", none⟩

/-- A group state with one code in group 1 and one in group 2. -/
def groupsW : GroupState := ⟨["a"], ["b"], []⟩

/-- A canonical-code table holding three diagnosis codes. -/
def icd10CbtW : CodeType → List String
  | .icd10cm => ["A00", "A00.0", "A00.1"]
  | _ => []

/-! ## Helper lemmas about the selection loops -/

lemma eraseAll_cons (s : Finset String) (c : String) (cs : List String) :
    eraseAll s (c :: cs) = eraseAll (s.erase c) cs := rfl

lemma insertAll_cons (s : Finset String) (c : String) (cs : List String) :
    insertAll s (c :: cs) = insertAll (insert c s) cs := rfl

lemma mem_eraseAll (l : List String) (s : Finset String) (x : String) :
    x ∈ eraseAll s l ↔ x ∈ s ∧ x ∉ l := by
  induction l generalizing s with
  | nil => simp [eraseAll]
  | cons c cs ih =>
    rw [eraseAll_cons, ih]
    simp only [Finset.mem_erase, List.mem_cons]
    tauto

lemma mem_insertAll (l : List String) (s : Finset String) (x : String) :
    x ∈ insertAll s l ↔ x ∈ s ∨ x ∈ l := by
  induction l generalizing s with
  | nil => simp [insertAll]
  | cons c cs ih =>
    rw [insertAll_cons, ih]
    simp only [Finset.mem_insert, List.mem_cons]
    tauto

lemma eraseAll_eq_sdiff (s : Finset String) (l : List String) :
    eraseAll s l = s \ l.toFinset := by
  ext x
  simp [mem_eraseAll]

lemma insertAll_eq_union (s : Finset String) (l : List String) :
    insertAll s l = s ∪ l.toFinset := by
  ext x
  simp [mem_insertAll]

lemma descend_head_aux :
    ∀ (k : Nat) (xs : List ICD10Code) (t : String), sizeOf xs ≤ k →
      getAllDescendantCodes xs t ≠ [] →
      (getAllDescendantCodes xs t).head? = some t := by
  intro k
  induction k with
  | zero =>
    intro xs t hle
    rcases xs with _ | ⟨n, ns⟩
    · intro hne
      exact absurd rfl hne
    · exfalso
      simp only [List.cons.sizeOf_spec] at hle
      omega
  | succ k ih =>
    intro xs t hle hne
    rcases xs with _ | ⟨⟨c, nm, l, ch⟩, ns⟩
    · exact absurd rfl hne
    · have hch : sizeOf ch ≤ k := by
        simp only [List.cons.sizeOf_spec, ICD10Code.node.sizeOf_spec] at hle
        omega
      have hns : sizeOf ns ≤ k := by
        simp only [List.cons.sizeOf_spec, ICD10Code.node.sizeOf_spec] at hle
        omega
      rw [getAllDescendantCodes] at hne ⊢
      simp only [getAllDescendantCodesNode] at hne ⊢
      by_cases hc : c = t
      · simp only [hc, if_pos rfl, collectAllCodes] at hne ⊢
        simp
      · simp only [if_neg hc] at hne ⊢
        by_cases hfound : 0 < (getAllDescendantCodes ch t).length
        · have hne2 : getAllDescendantCodes ch t ≠ [] := by
            intro h0
            rw [h0] at hfound
            simp at hfound
          simp only [if_pos hfound] at hne ⊢
          exact ih ch t hch hne2
        · simp only [if_neg hfound] at hne ⊢
          exact ih ns t hns hne

lemma self_mem_getAllDescendantCodes (xs : List ICD10Code) (t : String)
    (h : getAllDescendantCodes xs t ≠ []) : t ∈ getAllDescendantCodes xs t := by
  have hh := descend_head_aux (sizeOf xs) xs t le_rfl h
  cases hx : getAllDescendantCodes xs t with
  | nil => exact absurd hx h
  | cons a as =>
    rw [hx] at hh
    simp only [List.head?_cons, Option.some.injEq] at hh
    simp [hh]

/-- Claim C4: toggling a procedure-family category identifier with nonempty
member set M removes all of M from `selected` exactly when every member of M
was selected, and otherwise adds all of M (a partially-selected category
becomes fully selected). -/
theorem hcpcs_category_toggle (cat : Catalog) (code : String) (prev : Finset String)
    (hM : getHCPCSCodesInCategory cat.hcpcs code ≠ []) :
    toggleCode cat code prev =
      if (getHCPCSCodesInCategory cat.hcpcs code).toFinset ⊆ prev then
        prev \ (getHCPCSCodesInCategory cat.hcpcs code).toFinset
      else prev ∪ (getHCPCSCodesInCategory cat.hcpcs code).toFinset := by
  have hlen : 0 < (getHCPCSCodesInCategory cat.hcpcs code).length :=
    List.length_pos.mpr hM
  by_cases hall : (getHCPCSCodesInCategory cat.hcpcs code).toFinset ⊆ prev
  · have hb : (getHCPCSCodesInCategory cat.hcpcs code).all
        (fun c => decide (c ∈ prev)) = true := by
      rw [List.all_eq_true]
      intro c hc
      exact decide_eq_true (hall (List.mem_toFinset.mpr hc))
    simp [toggleCode, hlen, hb, hall, eraseAll_eq_sdiff]
  · have hb : (getHCPCSCodesInCategory cat.hcpcs code).all
        (fun c => decide (c ∈ prev)) = false := by
      rw [Bool.eq_false_iff]
      intro habs
      apply hall
      intro x hx
      have := List.all_eq_true.mp habs x (List.mem_toFinset.mp hx)
      exact of_decide_eq_true this
    simp [toggleCode, hlen, hb, hall, insertAll_eq_union]

/-- Witness for C4: a category with members X, Y, Z of which only X is
selected becomes fully selected. -/
theorem hcpcs_category_toggle_witness :
    toggleCode catHCPCS "C" {"X"} = ({"X", "Y", "Z"} : Finset String) := by
  rw [hcpcs_category_toggle catHCPCS "C" {"X"} (by decide)]
  decide

/-- Claim C5: toggling a diagnosis-family code that has descendants keys off
the code's own membership in `selected`: when the code itself is selected the
whole descendant set (the code included) is removed, otherwise the whole
descendant set is added, regardless of the descendants' own states. -/
theorem icd10_subtree_toggle (cat : Catalog) (code : String) (prev : Finset String)
    (hcatg : getHCPCSCodesInCategory cat.hcpcs code = [])
    (hdesc : getAllDescendantCodes cat.icd10 code ≠ []) :
    code ∈ getAllDescendantCodes cat.icd10 code ∧
    toggleCode cat code prev =
      if code ∈ prev then prev \ (getAllDescendantCodes cat.icd10 code).toFinset
      else prev ∪ (getAllDescendantCodes cat.icd10 code).toFinset := by
  refine ⟨self_mem_getAllDescendantCodes _ _ hdesc, ?_⟩
  have hlen : 0 < (getAllDescendantCodes cat.icd10 code).length :=
    List.length_pos.mpr hdesc
  by_cases hmem : code ∈ prev <;>
    simp [toggleCode, hcatg, hlen, hmem, eraseAll_eq_sdiff, insertAll_eq_union]

/-- Witness for C5: toggling the unselected parent `A00` while only its child
`A00.0` is selected selects the whole subtree. -/
theorem icd10_subtree_toggle_witness :
    toggleCode catTree "A00" {"A00.0"} = ({"A00.0", "A00"} : Finset String) := by
  rw [(icd10_subtree_toggle catTree "A00" {"A00.0"} (by decide) (by decide)).2]
  decide

/-- Counterexample to C3: in a catalog where `A00` has child `A00.0`, with
only the parent `A00` selected, toggling `A00` twice does not restore the
prior selection on the subtree — it first clears the subtree, then selects
all of it, so the previously unselected child ends selected. -/
theorem subtree_double_toggle_cex :
    ¬ (toggleCode catTree "A00" (toggleCode catTree "A00" {"A00"}) ∩
          (getAllDescendantCodes catTree.icd10 "A00").toFinset =
        ({"A00"} : Finset String) ∩
          (getAllDescendantCodes catTree.icd10 "A00").toFinset) := by
  decide

/-- Claim C3 (amended): toggling a diagnosis code with descendants twice in
succession restores `selected` exactly when the subtree was uniform before —
either every descendant (the code included) selected or none of them. -/
theorem subtree_double_toggle_of_uniform (cat : Catalog) (code : String)
    (prev : Finset String)
    (hcatg : getHCPCSCodesInCategory cat.hcpcs code = [])
    (hdesc : getAllDescendantCodes cat.icd10 code ≠ [])
    (huni : (∀ c ∈ getAllDescendantCodes cat.icd10 code, c ∈ prev) ∨
            (∀ c ∈ getAllDescendantCodes cat.icd10 code, c ∉ prev)) :
    toggleCode cat code (toggleCode cat code prev) = prev := by
  have hself := self_mem_getAllDescendantCodes _ _ hdesc
  have hlen : 0 < (getAllDescendantCodes cat.icd10 code).length :=
    List.length_pos.mpr hdesc
  rcases huni with hall | hnone
  · have hmem : code ∈ prev := hall _ hself
    have h1 : toggleCode cat code prev =
        prev \ (getAllDescendantCodes cat.icd10 code).toFinset := by
      simp [toggleCode, hcatg, hlen, hmem, eraseAll_eq_sdiff]
    have hmem2 : code ∉ prev \ (getAllDescendantCodes cat.icd10 code).toFinset := by
      simp [Finset.mem_sdiff, List.mem_toFinset, hself]
    have h2 : toggleCode cat code
        (prev \ (getAllDescendantCodes cat.icd10 code).toFinset) =
        prev \ (getAllDescendantCodes cat.icd10 code).toFinset ∪
          (getAllDescendantCodes cat.icd10 code).toFinset := by
      simp [toggleCode, hcatg, hlen, hmem2, insertAll_eq_union]
    rw [h1, h2]
    ext x
    simp only [Finset.mem_union, Finset.mem_sdiff, List.mem_toFinset]
    constructor
    · rintro (⟨hx, _⟩ | hx)
      · exact hx
      · exact hall x hx
    · intro hx
      by_cases hd : x ∈ getAllDescendantCodes cat.icd10 code
      · exact Or.inr hd
      · exact Or.inl ⟨hx, hd⟩
  · have hmem : code ∉ prev := hnone _ hself
    have h1 : toggleCode cat code prev =
        prev ∪ (getAllDescendantCodes cat.icd10 code).toFinset := by
      simp [toggleCode, hcatg, hlen, hmem, insertAll_eq_union]
    have hmem2 : code ∈ prev ∪ (getAllDescendantCodes cat.icd10 code).toFinset := by
      simp [Finset.mem_union, List.mem_toFinset, hself]
    have h2 : toggleCode cat code
        (prev ∪ (getAllDescendantCodes cat.icd10 code).toFinset) =
        (prev ∪ (getAllDescendantCodes cat.icd10 code).toFinset) \
          (getAllDescendantCodes cat.icd10 code).toFinset := by
      simp [toggleCode, hcatg, hlen, hmem2, eraseAll_eq_sdiff]
    rw [h1, h2]
    ext x
    simp only [Finset.mem_sdiff, Finset.mem_union, List.mem_toFinset]
    constructor
    · rintro ⟨hx | hx, hnd⟩
      · exact hx
      · exact absurd hx hnd
    · intro hx
      exact ⟨Or.inl hx, fun hd => hnone x hd hx⟩

/-- Witness for the amended C3: with the whole subtree of `A00` selected,
toggling `A00` twice restores the selection exactly. -/
theorem subtree_double_toggle_witness :
    toggleCode catTree "A00" (toggleCode catTree "A00" {"A00", "A00.0"}) =
      ({"A00", "A00.0"} : Finset String) :=
  subtree_double_toggle_of_uniform catTree "A00" {"A00", "A00.0"}
    (by decide) (by decide) (Or.inl (by decide))

/-- Counterexample to C2: with `B2` already selected and a query filtering
the results down to `A1` alone, `selectAll` does not union — the previously
selected `B2`, outside the filter, is dropped. -/
theorem selectAll_union_cex :
    ¬ ((selectAll catSearch stSearch).selectedCodes =
        stSearch.selectedCodes ∪
          ((filteredCodes catSearch stSearch).map (·.code)).toFinset) := by
  decide

/-- Claim C2 (amended): for every prior state, `selectAll` replaces
`selected` with exactly the identifiers of the currently filtered result set
(prior selections outside the filter are dropped), and `deselectAll` clears
`selected` entirely regardless of the filter. -/
theorem selectAll_scoped_deselectAll_global (cat : Catalog) (st : SearchState) :
    (∀ x, x ∈ (selectAll cat st).selectedCodes ↔
      x ∈ (filteredCodes cat st).map (·.code)) ∧
    (deselectAll st).selectedCodes = ∅ := by
  constructor
  · intro x
    simp [selectAll]
  · rfl

/-- Counterexample to C1: importing a CSV that lists the same code `A100`
once for group 1 and once for group 2 produces groups whose synchronization
(with `selected` = the import's selected set, whose element array is
`["A100"]`) leaves `A100` in both group 1 and group 2, so the pairwise
intersections are not empty. -/
theorem syncedGroups_disjoint_cex :
    (importCodesFromCSV (allCodes catImport) [rowGroup1, rowGroup2]).selected =
        ({"A100"} : Finset String) ∧
    ¬ ((syncedGroups
          (importCodesFromCSV (allCodes catImport) [rowGroup1, rowGroup2]).groups
          ["A100"]).group1.toFinset ∩
        (syncedGroups
          (importCodesFromCSV (allCodes catImport) [rowGroup1, rowGroup2]).groups
          ["A100"]).group2.toFinset = ∅) := by
  decide

/-- Claim C1 (amended): synchronization always makes the union of the three
groups equal `selected` as a set, keeps each group filtered to `selected` in
its existing order, and appends the unassigned selected identifiers to
group 1; the pairwise intersections are empty provided the pre-sync groups
were themselves pairwise disjoint (an import listing one code under two
groups violates that precondition and the overlap then persists). -/
theorem syncedGroups_invariant (g : GroupState) (selected : List String) :
    ((syncedGroups g selected).group1.toFinset ∪
        (syncedGroups g selected).group2.toFinset ∪
        (syncedGroups g selected).group3.toFinset = selected.toFinset) ∧
    ((syncedGroups g selected).group2 =
      g.group2.filter (fun c => decide (c ∈ selected))) ∧
    ((syncedGroups g selected).group3 =
      g.group3.filter (fun c => decide (c ∈ selected))) ∧
    ((syncedGroups g selected).group1 =
      g.group1.filter (fun c => decide (c ∈ selected)) ++
        selected.filter (fun c => decide (c ∉ g.group1 ++ g.group2 ++ g.group3))) ∧
    ((∀ c ∈ g.group1, c ∉ g.group2) → (∀ c ∈ g.group1, c ∉ g.group3) →
      (∀ c ∈ g.group2, c ∉ g.group3) →
      (∀ c ∈ (syncedGroups g selected).group1, c ∉ (syncedGroups g selected).group2) ∧
      (∀ c ∈ (syncedGroups g selected).group1, c ∉ (syncedGroups g selected).group3) ∧
      (∀ c ∈ (syncedGroups g selected).group2, c ∉ (syncedGroups g selected).group3)) := by
  refine ⟨?_, rfl, rfl, rfl, ?_⟩
  · ext x
    simp only [syncedGroups, Finset.mem_union, List.mem_toFinset, List.mem_append,
      List.mem_filter, decide_eq_true_eq]
    tauto
  · intro h12 h13 h23
    refine ⟨?_, ?_, ?_⟩
    · intro c hc1 hc2
      simp only [syncedGroups, List.mem_append, List.mem_filter,
        decide_eq_true_eq] at hc1 hc2
      have h1 := h12 c
      tauto
    · intro c hc1 hc3
      simp only [syncedGroups, List.mem_append, List.mem_filter,
        decide_eq_true_eq] at hc1 hc3
      have h1 := h13 c
      tauto
    · intro c hc2 hc3
      simp only [syncedGroups, List.mem_filter, decide_eq_true_eq] at hc2 hc3
      exact h23 c hc2.1 hc3.1

/-- Witness for the amended C1: with group 1 = [a], group 2 = [b] and the
selected array [b, c], the synchronized groups' union is exactly {b, c}, and
the disjointness conclusion holds once the disjointness premises of these
concrete groups are discharged. -/
theorem syncedGroups_invariant_witness :
    ((syncedGroups groupsW ["b", "c"]).group1.toFinset ∪
        (syncedGroups groupsW ["b", "c"]).group2.toFinset ∪
        (syncedGroups groupsW ["b", "c"]).group3.toFinset =
      (["b", "c"] : List String).toFinset) ∧
    (∀ c ∈ (syncedGroups groupsW ["b", "c"]).group1,
      c ∉ (syncedGroups groupsW ["b", "c"]).group2) :=
  ⟨(syncedGroups_invariant groupsW ["b", "c"]).1,
    ((syncedGroups_invariant groupsW ["b", "c"]).2.2.2.2
      (by decide) (by decide) (by decide)).1⟩

/-! ## Helper lemmas about the import loop -/

lemma importStep_codeSet_eq (cbt : CodeType → List String)
    (i n : List (String × String)) (row : ImportedCSVRow) (acc : ImportAcc)
    (h : acc.codeSet = acc.matchedCodes.toFinset) :
    (importStep cbt i n row acc).codeSet =
      (importStep cbt i n row acc).matchedCodes.toFinset := by
  by_cases hb : trimStr row.code_value = ""
  · simpa [importStep, hb] using h
  · cases hnt : normalizeCodeTypeFromCSV row.code_type with
    | none => simpa [importStep, hb, hnt] using h
    | some rt =>
      cases hres : resolveCodeForMatch (trimStr row.code_value) rt cbt i n with
      | none => simpa [importStep, hb, hnt, hres] using h
      | some c =>
        simp only [importStep, hb, hnt, hres, if_neg hb]
        ext x
        simp [h, or_comm]

lemma importStep_count (cbt : CodeType → List String)
    (i n : List (String × String)) (row : ImportedCSVRow) (acc : ImportAcc) :
    (importStep cbt i n row acc).matchedCodes.length +
        (importStep cbt i n row acc).unmatchedCodes.length =
      acc.matchedCodes.length + acc.unmatchedCodes.length +
        (if trimStr row.code_value = "" then 0 else 1) := by
  by_cases hb : trimStr row.code_value = ""
  · simp [importStep, hb]
  · cases hnt : normalizeCodeTypeFromCSV row.code_type with
    | none =>
      simp [importStep, hb, hnt]
      omega
    | some rt =>
      cases hres : resolveCodeForMatch (trimStr row.code_value) rt cbt i n with
      | none =>
        simp [importStep, hb, hnt, hres]
        omega
      | some c =>
        simp [importStep, hb, hnt, hres]
        omega

lemma importLoop_codeSet_eq (cbt : CodeType → List String)
    (i n : List (String × String)) (rows : List ImportedCSVRow) (acc : ImportAcc)
    (h : acc.codeSet = acc.matchedCodes.toFinset) :
    (importLoop cbt i n rows acc).codeSet =
      (importLoop cbt i n rows acc).matchedCodes.toFinset := by
  induction rows generalizing acc with
  | nil => simpa [importLoop] using h
  | cons row rest ih =>
    simp only [importLoop]
    exact ih _ (importStep_codeSet_eq cbt i n row acc h)

lemma importLoop_count (cbt : CodeType → List String)
    (i n : List (String × String)) (rows : List ImportedCSVRow) (acc : ImportAcc) :
    (importLoop cbt i n rows acc).matchedCodes.length +
        (importLoop cbt i n rows acc).unmatchedCodes.length =
      acc.matchedCodes.length + acc.unmatchedCodes.length +
        (rows.filter (fun row => decide (trimStr row.code_value ≠ ""))).length := by
  induction rows generalizing acc with
  | nil => simp [importLoop]
  | cons row rest ih =>
    simp only [importLoop, List.filter_cons]
    rw [ih, importStep_count]
    by_cases h0 : trimStr row.code_value = ""
    · simp [h0]
    · simp [h0]
      omega


/-- Claim C6: for every prior state and import row list, `importCodesFromCSV`
replaces `selected` with exactly the set of matched canonical codes, and
every row whose code value is nonblank after trimming lands in exactly one of
the matched and unmatched lists (their lengths add up to the number of such
rows). -/
theorem import_replaces_and_partitions (cat : Catalog) (st : SearchState)
    (rows : List ImportedCSVRow) :
    ((applyImport cat st rows).1.selectedCodes =
      (importCodesFromCSV (allCodes cat) rows).matchedCodes.toFinset) ∧
    ((importCodesFromCSV (allCodes cat) rows).matchedCodes.length +
        (importCodesFromCSV (allCodes cat) rows).unmatchedCodes.length =
      (rows.filter (fun row => decide (trimStr row.code_value ≠ ""))).length) := by
  constructor
  · show (importCodesFromCSV (allCodes cat) rows).selected =
      (importCodesFromCSV (allCodes cat) rows).matchedCodes.toFinset
    simp only [importCodesFromCSV]
    exact importLoop_codeSet_eq _ _ _ rows _ (by simp)
  · simp only [importCodesFromCSV]
    rw [importLoop_count]
    simp

/-- Claim C10: a row whose code value is empty or whitespace-only is skipped
entirely by the import: removing it from the row list changes nothing — not
the selected set, the groups, the matched or unmatched lists, nor the
resulting type filter. -/
theorem import_skips_blank_rows (cat : Catalog) (rows1 rows2 : List ImportedCSVRow)
    (row : ImportedCSVRow) (h : trimStr row.code_value = "") :
    importCodesFromCSV (allCodes cat) (rows1 ++ row :: rows2) =
      importCodesFromCSV (allCodes cat) (rows1 ++ rows2) := by
  have key : ∀ (cbt : CodeType → List String) (i n : List (String × String))
      (acc : ImportAcc),
      importLoop cbt i n (rows1 ++ row :: rows2) acc =
        importLoop cbt i n (rows1 ++ rows2) acc := by
    intro cbt i n
    induction rows1 with
    | nil =>
      intro acc
      simp [importLoop, importStep, h]
    | cons r rs ih =>
      intro acc
      simp only [List.cons_append, importLoop]
      exact ih _
  simp only [importCodesFromCSV, key]

/-- Witness for C10: appending a whitespace-only row to a one-row import over
the one-code catalog leaves the import result unchanged. -/
theorem import_skips_blank_rows_witness :
    importCodesFromCSV (allCodes catImport) [rowGroup1, rowBlank] =
      importCodesFromCSV (allCodes catImport) [rowGroup1] :=
  import_skips_blank_rows catImport [rowGroup1] [] rowBlank (by decide)

/-- Claim C7: drug-code matching tries an exact match first; otherwise the
non-digits are stripped and, for an 11-digit result, the padding zero is the
leading zero of the first, then second, then third segment of the 5-4-2
split (positions 0, 5, 9), the first detected zero is removed (the last
digit is truncated when none is found), and the 10-digit result is looked up
in the digit-only reverse index; in particular `00069270030` resolves to the
canonical `0069-2700-30` of the repository's drug catalog. -/
theorem ndc_match_pipeline :
    (∀ d : String, d.data.length = 11 →
      ndc11ToNdc10Digits d =
        ⟨d.data.take (ndcPadPositionSpec d) ++ d.data.drop (ndcPadPositionSpec d + 1)⟩) ∧
    (∀ (s : String) (cbt : CodeType → List String) (i n : List (String × String)),
      trimStr s ≠ "" → trimStr s ∈ cbt CodeType.ndc →
      resolveCodeForMatch s .ndc cbt i n = some (trimStr s)) ∧
    (∀ (s : String) (cbt : CodeType → List String) (i n : List (String × String)),
      trimStr s ≠ "" → trimStr s ∉ cbt CodeType.ndc →
      (filterDigits (trimStr s)).data.length = 11 →
      resolveCodeForMatch s .ndc cbt i n =
        mapGet n (ndc11ToNdc10Digits (filterDigits (trimStr s)))) ∧
    resolveCodeForMatch "00069270030" .ndc (codesOfType (allCodes ndcCatalog))
      (icd10RevIndex (codesOfType (allCodes ndcCatalog) .icd10cm))
      (ndcRevIndex (codesOfType (allCodes ndcCatalog) .ndc)) = some "0069-2700-30" := by
  refine ⟨?_, ?_, ?_, ?_⟩
  · intro d h
    obtain ⟨l⟩ := d
    rcases l with _ | ⟨g0, l⟩
    · exact absurd h (by simp)
    rcases l with _ | ⟨g1, l⟩
    · exact absurd h (by simp)
    rcases l with _ | ⟨g2, l⟩
    · exact absurd h (by simp)
    rcases l with _ | ⟨g3, l⟩
    · exact absurd h (by simp)
    rcases l with _ | ⟨g4, l⟩
    · exact absurd h (by simp)
    rcases l with _ | ⟨g5, l⟩
    · exact absurd h (by simp)
    rcases l with _ | ⟨g6, l⟩
    · exact absurd h (by simp)
    rcases l with _ | ⟨g7, l⟩
    · exact absurd h (by simp)
    rcases l with _ | ⟨g8, l⟩
    · exact absurd h (by simp)
    rcases l with _ | ⟨g9, l⟩
    · exact absurd h (by simp)
    rcases l with _ | ⟨g10, l⟩
    · exact absurd h (by simp)
    rcases l with _ | ⟨g11, l⟩
    · by_cases hz0 : g0 = '0'
      · simp [ndc11ToNdc10Digits, ndcPadPositionSpec, hz0]
      by_cases hz5 : g5 = '0'
      · simp [ndc11ToNdc10Digits, ndcPadPositionSpec, hz0, hz5]
      by_cases hz9 : g9 = '0'
      · simp [ndc11ToNdc10Digits, ndcPadPositionSpec, hz0, hz5, hz9]
      simp [ndc11ToNdc10Digits, ndcPadPositionSpec, hz0, hz5, hz9]
    · simp only [List.length_cons] at h
      omega
  · intro s cbt i n hne hmem
    simp [resolveCodeForMatch, hne, hmem]
  · intro s cbt i n hne hmem h11
    simp [resolveCodeForMatch, hne, hmem, h11]
  · decide

/-- Witness for C7: applying the padding characterization to the 11-digit
input of the spec's example. -/
theorem ndc_match_pipeline_witness :
    ndc11ToNdc10Digits "00069270030" =
      ⟨("00069270030" : String).data.take (ndcPadPositionSpec "00069270030") ++
        ("00069270030" : String).data.drop (ndcPadPositionSpec "00069270030" + 1)⟩ :=
  ndc_match_pipeline.1 "00069270030" (by decide)

/-- Claim C8: diagnosis-code matching tries, in order, the exact input, the
input with a period inserted after the third character (when the input has no
period, is at least four characters and starts letter-digit-digit), and the
period-stripped reverse index, whose hits are canonical codes whose
period-stripped form equals the lookup key; `A000` resolves to a canonical
`A00.0` and `A00.0` resolves to itself. -/
theorem icd10_match_order :
    (∀ (s : String) (cbt : CodeType → List String) (i n : List (String × String)),
      trimStr s ≠ "" →
      resolveCodeForMatch s .icd10cm cbt i n =
        (if trimStr s ∈ cbt CodeType.icd10cm then some (trimStr s)
         else if normalizeICD10Code (trimStr s) ∈ cbt CodeType.icd10cm then
           some (normalizeICD10Code (trimStr s))
         else mapGet i (stripFirstDot (trimStr s)))) ∧
    (∀ (codes : List String) (key c : String),
      mapGet (icd10RevIndex codes) key = some c → c ∈ codes ∧ stripFirstDot c = key) ∧
    (∀ (cbt : CodeType → List String) (i n : List (String × String)),
      "A00.0" ∈ cbt CodeType.icd10cm → "A000" ∉ cbt CodeType.icd10cm →
      resolveCodeForMatch "A000" .icd10cm cbt i n = some "A00.0") ∧
    (∀ (cbt : CodeType → List String) (i n : List (String × String)),
      "A00.0" ∈ cbt CodeType.icd10cm →
      resolveCodeForMatch "A00.0" .icd10cm cbt i n = some "A00.0") := by
  refine ⟨?_, ?_, ?_, ?_⟩
  · intro s cbt i n hne
    simp [resolveCodeForMatch, hne]
  · intro codes key c hm
    simp only [mapGet, Option.map_eq_some'] at hm
    obtain ⟨p, hp, hpc⟩ := hm
    have hpmem := List.mem_of_mem_getLast? hp
    simp only [icd10RevIndex, List.mem_filter, List.mem_map, decide_eq_true_eq] at hpmem
    obtain ⟨⟨c', hc', hpeq⟩, hkey⟩ := hpmem
    subst hpeq
    simp only at hpc hkey
    subst hpc
    exact ⟨hc'.1, hkey⟩
  · intro cbt i n h1 h2
    have ht : trimStr "A000" = "A000" := by decide
    have hnorm : normalizeICD10Code "A000" = "A00.0" := by decide
    simp [resolveCodeForMatch, ht, hnorm, h1, h2]
  · intro cbt i n h1
    have ht : trimStr "A00.0" = "A00.0" := by decide
    simp [resolveCodeForMatch, ht, h1]

/-- Witness for C8: the spec's example over a concrete three-code diagnosis
table — the pointless form `A000` recovers the canonical `A00.0`. -/
theorem icd10_match_order_witness :
    resolveCodeForMatch "A000" .icd10cm icd10CbtW [] [] = some "A00.0" :=
  icd10_match_order.2.2.1 icd10CbtW [] [] (by decide) (by decide)

/-! ## Helper lemmas about whitespace and lower-casing -/

lemma toLower_of_isWhitespace {c : Char} (h : c.isWhitespace = true) :
    c.toLower = c := by
  simp only [Char.isWhitespace, Bool.or_eq_true, decide_eq_true_eq] at h
  rcases h with ((h | h) | h) | h <;> subst h <;> decide

lemma all_ws_of_trimChars_nil {l : List Char} (h : trimChars l = []) :
    ∀ c ∈ l, c.isWhitespace = true := by
  unfold trimChars at h
  rw [List.reverse_eq_nil_iff, List.dropWhile_eq_nil_iff] at h
  intro c hc
  by_cases hw : c.isWhitespace = true
  · exact hw
  · exfalso
    have hsplit := List.takeWhile_append_dropWhile (p := Char.isWhitespace) (l := l)
    rw [← hsplit] at hc
    rcases List.mem_append.mp hc with h1 | h2
    · exact hw (List.mem_takeWhile_imp h1)
    · exact hw (h c (List.mem_reverse.mpr h2))

lemma trimChars_nil_of_all_ws {l : List Char} (h : ∀ c ∈ l, c.isWhitespace = true) :
    trimChars l = [] := by
  unfold trimChars
  rw [List.dropWhile_eq_nil_iff.mpr h]
  simp

lemma queryTerms_nil_of_trim_empty {q : String} (h : trimStr q = "") :
    queryTerms q = [] := by
  have h0 : trimChars q.data = [] := by
    simpa using congrArg String.data h
  have hws := all_ws_of_trimChars_nil h0
  have h1 : trimChars ((lowerStr q).data) = [] := by
    apply trimChars_nil_of_all_ws
    intro c hc
    simp only [lowerStr, List.mem_map] at hc
    obtain ⟨a, ha, rfl⟩ := hc
    rw [toLower_of_isWhitespace (hws a ha)]
    exact hws a ha
  show splitWs (trimStr (lowerStr q)) = []
  unfold trimStr
  rw [h1]
  simp [splitWs]

/-- Claim C9: a record is in the search result exactly when it is in the
catalog sequence and every whitespace-split term of the query occurs
case-insensitively in the record's searchable text (code, name and category
joined by spaces, with a missing category read as the empty string); an
empty or whitespace-only query keeps every record, and the result is a
sublist of the input, preserving the flattening emission order. -/
theorem search_filter_spec (q : String) (codes : List FlattenedCode) :
    (searchFilteredCodes q codes).Sublist codes ∧
    ∀ r, r ∈ searchFilteredCodes q codes ↔
      r ∈ codes ∧ ∀ t ∈ queryTerms q, isSubstrOf t (lowerStr (searchableText r)) := by
  by_cases h : trimStr q = ""
  · constructor
    · simp only [searchFilteredCodes, if_pos h]
      exact List.Sublist.refl _
    · intro r
      simp [searchFilteredCodes, h, queryTerms_nil_of_trim_empty h]
  · constructor
    · simp only [searchFilteredCodes, if_neg h]
      exact List.filter_sublist _
    · intro r
      simp only [searchFilteredCodes, if_neg h, List.mem_filter, matchesQuery,
        List.all_eq_true, decide_eq_true_eq]

end CodeSearch
